import Mathlib

/-!
Verification of the job-import pipeline (XML feed ingestion server).

The development shallowly embeds the JavaScript sources:
* `jobFetcher.service.js` — feed extraction (`extractJobs`) and
  normalization (`normalizeJob`, `normalizeJobType`);
* `jobProcessor.service.js` — reconciliation (`processJob`,
  `batchProcessJobs`) against the Mongo store, modelled as a list of
  records in insertion order;
* `jobQueue.js` — bulk enqueue (`addBulkJobsToQueue`);
* `importLogger.service.js` — `calculateSuccessRate`, with JavaScript
  float arithmetic modelled by exact rational arithmetic;
* the pipeline entry points `startImport` (import controller) and
  `automatedImport` (server entry file), modelled as traces of
  observable effects.
-/

namespace JobServer

/-! ## JavaScript value model

`JValue` models the JavaScript values that flow out of the XML parser
and into `extractJobs` / `normalizeJob`.  `vNull` stands for
`undefined`/`null`/an absent property.  JavaScript arrays can carry
named properties in addition to their elements, so `vArr` keeps both. -/

inductive JValue where
  | vNull
  | vStr (s : String)
  | vNum (n : Int)
  | vBool (b : Bool)
  | vArr (elems : List JValue) (props : List (String × JValue))
  | vObj (props : List (String × JValue))

/-- Property lookup in an object's property list; absent keys give `vNull`. -/
def getProp (props : List (String × JValue)) (key : String) : JValue :=
  match props.find? (fun p => p.1 == key) with
  | some p => p.2
  | none => JValue.vNull

/-- JavaScript property access `v[key]` (non-objects give `undefined`). -/
def jget : JValue → String → JValue
  | JValue.vObj props, key => getProp props key
  | JValue.vArr _ props, key => getProp props key
  | _, _ => JValue.vNull

/-- JavaScript truthiness: `undefined`, `null`, `""`, `0` are falsy;
objects and arrays are always truthy. -/
def truthy : JValue → Bool
  | JValue.vNull => false
  | JValue.vStr s => !(s == "")
  | JValue.vNum n => !(n == 0)
  | JValue.vBool b => b
  | JValue.vArr _ _ => true
  | JValue.vObj _ => true

/-- JavaScript `a || b`. -/
def jsOr (a b : JValue) : JValue := if truthy a then a else b

mutual

/-- JavaScript string conversion (`String(v)` and template interpolation).
Arrays stringify as their comma-joined elements, plain objects as
`[object Object]`. -/
def jsString : JValue → String
  | JValue.vNull => "undefined"
  | JValue.vStr s => s
  | JValue.vNum n => toString n
  | JValue.vBool b => if b then "true" else "false"
  | JValue.vObj _ => "[object Object]"
  | JValue.vArr elems _ => jsStringList elems

/-- Array stringification: elements joined by commas. -/
def jsStringList : List JValue → String
  | [] => ""
  | [x] => jsString x
  | x :: xs => jsString x ++ "," ++ jsStringList xs

end

/-! ### JavaScript string primitives

The embedding spells out `toLowerCase`, `trim` and `substring` as plain
character-list operations (they agree with the JavaScript primitives on
the ASCII, UTF-16-surrogate-free strings this pipeline handles). -/

/-- ASCII lower-casing of one character (`A`–`Z` shifted by 32). -/
def lowerChar (c : Char) : Char :=
  if 65 ≤ c.toNat ∧ c.toNat ≤ 90 then Char.ofNat (c.toNat + 32) else c

/-- JavaScript `s.toLowerCase()` on ASCII strings. -/
def jsToLowerCase (s : String) : String := String.mk (s.data.map lowerChar)

/-- JavaScript whitespace for `trim`. -/
def isJsWhitespace (c : Char) : Bool :=
  c == ' ' || c == '\t' || c == '\n' || c == '\r'

/-- JavaScript `s.trim()`: strip whitespace from both ends. -/
def jsTrim (s : String) : String :=
  String.mk (((s.data.dropWhile isJsWhitespace).reverse.dropWhile
    isJsWhitespace).reverse)

/-- JavaScript `s.substring(0, n)`: the first `n` characters. -/
def jsSubstring (s : String) (n : Nat) : String := String.mk (s.data.take n)

/-! ## Extractor (`extractJobs` in the fetcher service)

The source tries the known feed shapes in a fixed order of
`if`/`else if` branches; each branch wraps a singular item into a
one-element array (`Array.isArray(x) ? x : [x]`). -/

/-- `Array.isArray(x) ? x : [x]`. -/
def asItemList : JValue → List JValue
  | JValue.vArr elems _ => elems
  | v => [v]

/-- The value at `parsedData.rss.channel.item`. -/
def rssItems (d : JValue) : JValue := jget (jget (jget d "rss") "channel") "item"

/-- Condition of the RSS branch:
`parsedData.rss && parsedData.rss.channel && parsedData.rss.channel.item`. -/
def hasRssShape (d : JValue) : Bool :=
  truthy (jget d "rss") && truthy (jget (jget d "rss") "channel") &&
    truthy (rssItems d)

/-- Condition of the Atom branch: `parsedData.feed && parsedData.feed.entry`. -/
def hasFeedShape (d : JValue) : Bool :=
  truthy (jget d "feed") && truthy (jget (jget d "feed") "entry")

/-- Condition of the jobs-wrapper branch: `parsedData.jobs && parsedData.jobs.job`. -/
def hasJobsShape (d : JValue) : Bool :=
  truthy (jget d "jobs") && truthy (jget (jget d "jobs") "job")

/-- Condition of the bare-job branch: `parsedData.job`. -/
def hasJobShape (d : JValue) : Bool := truthy (jget d "job")

/-- `Array.isArray(parsedData)`. -/
def isTopLevelArray : JValue → Bool
  | JValue.vArr _ _ => true
  | _ => false

/-- The repeating-item list located by `extractJobs` before normalization,
following the source's branch order exactly; when no branch fires,
`jobs` keeps its initial value `[]`. -/
def extractItems (d : JValue) : List JValue :=
  if hasRssShape d then asItemList (rssItems d)
  else if hasFeedShape d then asItemList (jget (jget d "feed") "entry")
  else if hasJobsShape d then asItemList (jget (jget d "jobs") "job")
  else if hasJobShape d then asItemList (jget d "job")
  else match d with
    | JValue.vArr elems _ => elems
    | _ => []

/-! ## Normalizer (`normalizeJob`, `normalizeJobType`)

Each canonical field is an ordered `||` fallback chain over source
field aliases, ending in a fixed default. -/

def titleVal (job : JValue) : JValue :=
  jsOr (jget job "title") (jsOr (jget job "jobTitle")
    (jsOr (jget job "position") (jsOr (jget job "#text")
      (JValue.vStr "Untitled Position"))))

def companyVal (job : JValue) : JValue :=
  jsOr (jget job "company") (jsOr (jget job "companyName")
    (jsOr (jget job "employer") (jsOr (jget job "organization")
      (JValue.vStr "Unknown Company"))))

def descriptionVal (job : JValue) : JValue :=
  jsOr (jget job "description") (jsOr (jget job "summary")
    (jsOr (jget job "content") (jsOr (jget job "content:encoded")
      (JValue.vStr ""))))

def urlVal (job : JValue) (sourceUrl : String) : JValue :=
  jsOr (jget job "link") (jsOr (jget job "url")
    (jsOr (jget job "apply_url") (jsOr (jget job "guid")
      (JValue.vStr sourceUrl))))

def locationVal (job : JValue) : JValue :=
  jsOr (jget job "location") (jsOr (jget job "jobLocation")
    (jsOr (jget job "city") (jsOr (jget job "country")
      (JValue.vStr "Remote"))))

def categoryVal (job : JValue) : JValue :=
  jsOr (jget job "category") (jsOr (jget job "jobCategory")
    (jsOr (jget job "department") (jsOr (jget job "sector")
      (JValue.vStr "General"))))

def typeVal (job : JValue) : JValue :=
  jsOr (jget job "type") (jsOr (jget job "jobType")
    (jsOr (jget job "employmentType") (JValue.vStr "Other")))

/-- The date alias chain `job.pubDate || job.published || job.date ||
job.postedDate` (no default: the chain's last member is returned as is). -/
def dateVal (job : JValue) : JValue :=
  jsOr (jget job "pubDate") (jsOr (jget job "published")
    (jsOr (jget job "date") (jget job "postedDate")))

/-- `postedAt` of a normalized job: either the raw date-ish value that
`new Date(dateStr)` accepted, or the current processing time
(`new Date()`), which the embedding leaves abstract. -/
inductive PostedAt where
  | currentTime
  | parsed (d : JValue)

/-- `postedAt` resolution: if the alias chain is truthy and the chosen
value parses as a date (per the environment's date parser `dateValid`,
which the embedding takes as a parameter), use it; otherwise the current
time. -/
def resolvePostedAt (dateValid : JValue → Bool) (job : JValue) : PostedAt :=
  let d := dateVal job
  if truthy d then
    (if dateValid d then PostedAt.parsed d else PostedAt.currentTime)
  else PostedAt.currentTime

/-- `.replace(/[^a-zA-Z0-9]/g, '-')`: every non-alphanumeric character is
replaced by a dash. -/
def collapseNonAlnum (s : String) : String :=
  String.mk (s.data.map (fun c => if c.isAlphanum then c else '-'))

/-- The synthesized external id `` `${sourceUrl}-${title}-${company}`
.replace(/[^a-zA-Z0-9]/g, '-').toLowerCase() `` (before the final
`substring(0, 200)`). -/
def synthesizedId (job : JValue) (sourceUrl : String) : String :=
  jsToLowerCase (collapseNonAlnum
    (sourceUrl ++ "-" ++ jsString (titleVal job) ++ "-" ++
      jsString (companyVal job)))

/-- `job.id || job.guid || job['@_id'] || <synthesized id>`. -/
def rawExternalId (job : JValue) (sourceUrl : String) : JValue :=
  jsOr (jget job "id") (jsOr (jget job "guid")
    (jsOr (jget job "@_id") (JValue.vStr (synthesizedId job sourceUrl))))

/-- The lookup table of `normalizeJobType`, as an association list. -/
def typeMap : List (String × String) :=
  [("full-time", "Full-time"), ("fulltime", "Full-time"),
   ("full time", "Full-time"), ("part-time", "Part-time"),
   ("parttime", "Part-time"), ("part time", "Part-time"),
   ("contract", "Contract"), ("contractor", "Contract"),
   ("freelance", "Freelance"), ("remote", "Remote"),
   ("temporary", "Contract")]

/-- The value of the JavaScript lookup `typeMap[normalized]` followed by
`|| 'Other'`: either a string, or — when the key names a property that
`typeMap` inherits from `Object.prototype` (all of whose values are
truthy functions, or the prototype object itself for `__proto__`) —
that inherited non-string value. -/
inductive JsTypeValue where
  | str (s : String)
  | protoValue (key : String)
deriving Repr, DecidableEq

/-- The property names every object literal inherits from
`Object.prototype`; reading any of them yields a truthy value. -/
def protoProps : List String :=
  ["constructor", "hasOwnProperty", "isPrototypeOf", "propertyIsEnumerable",
   "toLocaleString", "toString", "valueOf", "__defineGetter__",
   "__defineSetter__", "__lookupGetter__", "__lookupSetter__", "__proto__"]

/-- `normalizeJobType`: lower-case and trim the input, then evaluate
`typeMap[normalized] || 'Other'`.  JavaScript property lookup checks the
own keys first and then the prototype chain, so a normalized key naming
an `Object.prototype` property returns that truthy inherited value
(short-circuiting the `|| 'Other'` fallback); only a genuinely absent
key falls through to `"Other"`. -/
def normalizeJobType (t : String) : JsTypeValue :=
  let normalized := jsTrim (jsToLowerCase t)
  match typeMap.find? (fun p => p.1 == normalized) with
  | some p => JsTypeValue.str p.2
  | none =>
      if protoProps.contains normalized then JsTypeValue.protoValue normalized
      else JsTypeValue.str "Other"

/-- The canonical job candidate produced by `normalizeJob` (also the
queue payload `jobData` consumed by `processJob`).  The `updatedAt:
new Date()` set by the normalizer is omitted: the processor overwrites
it on every store write, which is where it is observable. -/
structure NormalizedJob where
  externalId : String
  title : String
  company : String
  category : String
  type : JsTypeValue
  location : String
  description : String
  url : String
  postedAt : PostedAt

/-- `normalizeJob(job, sourceUrl)`.  All string fields are truncated to
their length bound via `substring(0, n)`.
The external id is the only value on which the source calls
`.substring` without a prior `String(...)` conversion, so a truthy
non-string `id`/`guid`/`@_id` makes the source throw a `TypeError`;
the embedding returns `Except.error` there. -/
def normalizeJob (dateValid : JValue → Bool) (job : JValue)
    (sourceUrl : String) : Except String NormalizedJob :=
  match rawExternalId job sourceUrl with
  | JValue.vStr eid =>
      Except.ok
        { externalId := jsSubstring eid 200
        , title := jsSubstring (jsString (titleVal job)) 200
        , company := jsSubstring (jsString (companyVal job)) 200
        , category := jsSubstring (jsString (categoryVal job)) 100
        , type := normalizeJobType (jsString (typeVal job))
        , location := jsSubstring (jsString (locationVal job)) 200
        , description := jsSubstring (jsString (descriptionVal job)) 5000
        , url := jsSubstring (jsString (urlVal job sourceUrl)) 500
        , postedAt := resolvePostedAt dateValid job }
  | _ => Except.error "TypeError: externalId.substring is not a function"

/-- `extractJobs(parsedData, sourceUrl)`: locate the item list, then
`jobs.map(job => this.normalizeJob(job, sourceUrl))` inside a
`try`/`catch` that turns any thrown error into `[]`. -/
def extractJobs (dateValid : JValue → Bool) (d : JValue)
    (sourceUrl : String) : List NormalizedJob :=
  match (extractItems d).mapM (fun item => normalizeJob dateValid item sourceUrl) with
  | Except.ok l => l
  | Except.error _ => []

/-! ## Queue (`addBulkJobsToQueue` in `jobQueue.js`)

An enqueued entry carries the BullMQ job name, the payload
`{ jobData, importLogId }` and the deduplicating job id
`` `${importLogId}-${jobData.externalId}` ``. -/

structure QueueEntry where
  name : String
  jobData : NormalizedJob
  importLogId : String
  jobId : String

/-- `addBulkJobsToQueue(jobs, importLogId)`: map every candidate to a
bulk entry named `process-job` whose `opts.jobId` is
`importLogId + "-" + externalId`. -/
def addBulkJobsToQueue (jobs : List NormalizedJob) (importLogId : String) :
    List QueueEntry :=
  jobs.map (fun jobData =>
    { name := "process-job"
    , jobData := jobData
    , importLogId := importLogId
    , jobId := importLogId ++ "-" ++ jobData.externalId })

/-! ## Processor (`processJob`, `batchProcessJobs`)

The Mongo `jobs` collection is modelled as a list of stored records in
insertion order; `Job.findOne` returns the first record matching the
filter in that order.  `processJob` receives the queue payload
`jobData` (a normalized candidate) and the current time (for the
`updatedAt: new Date()` refresh). -/

/-- A candidate with the given identity fields, schema-acceptable
values elsewhere (concrete instances for tests and witnesses). -/
def mkCandidate (eid title company url : String) : NormalizedJob :=
  { externalId := eid, title := title, company := company
  , category := "General", type := JsTypeValue.str "Other"
  , location := "Remote", description := "An imported job description"
  , url := url, postedAt := PostedAt.currentTime }

/-- A persisted Job record: the candidate fields plus the `updatedAt`
timestamp refreshed on every write. -/
structure StoredJob where
  data : NormalizedJob
  updatedAt : Nat

/-- The store: the `jobs` collection in insertion order. -/
abbrev Store := List StoredJob

/-- The validation guard of `processJob`:
`!jobData.externalId || !jobData.title || !jobData.company || !jobData.url`
fails on any falsy identity field; for string fields falsy means the
empty string (an absent field is modelled as `""` as well). -/
def hasRequiredFields (c : NormalizedJob) : Bool :=
  !(c.externalId == "" || c.title == "" || c.company == "" || c.url == "")

/-- The `findOne` filter `{ $or: [{externalId}, {url}] }`. -/
def matchesIdentity (c : NormalizedJob) (j : StoredJob) : Bool :=
  j.data.externalId == c.externalId || j.data.url == c.url

inductive Action where
  | created
  | updated
  | failed
deriving Repr, DecidableEq

/-- The structured outcome `processJob` resolves to (the stored record
itself is tracked in the returned store). -/
structure Outcome where
  success : Bool
  action : Action
  error : Option String
deriving Repr, DecidableEq

/-- Replace the first record satisfying `p` (the in-place `save` of the
document returned by `findOne`). -/
def updateFirst (p : StoredJob → Bool) (new : StoredJob) : Store → Store
  | [] => []
  | j :: rest => if p j then new :: rest else j :: updateFirst p new rest

def validationErrorMsg : String :=
  "Missing required fields: externalId, title, company, or url"

/-- Representative message of the Mongoose `ValidationError` thrown by
`save()` when the document violates the `Job` schema. -/
def schemaErrorMsg : String := "Job validation failed"

/-- A `required: true` string path of the `Job` schema: Mongoose's
required check for strings rejects the empty string. -/
def requiredStringOk (s : String) : Bool := !(s == "")

/-- The `enum` of the `type` path in `Job.model.js`. -/
def jobTypeEnum : List String :=
  ["Full-time", "Part-time", "Contract", "Freelance", "Remote", "Other"]

/-- Whether the candidate's `type` value passes the `type` path: a
string belonging to the enum; a non-string inherited prototype value
fails the cast/enum validation. -/
def typeAccepted : JsTypeValue → Bool
  | JsTypeValue.str s => jobTypeEnum.contains s
  | JsTypeValue.protoValue _ => false

/-- The Mongoose document validation `save()` runs against
`Job.model.js`: the required string paths `externalId`, `title`,
`company`, `description`, `url` must be non-empty, and `type` must
respect its enum (`category`/`location` carry defaults but are not
required, and `postedAt`/`updatedAt` always hold dates here). -/
def jobSchemaAccepts (c : NormalizedJob) : Bool :=
  requiredStringOk c.externalId && requiredStringOk c.title &&
    requiredStringOk c.company && requiredStringOk c.description &&
    requiredStringOk c.url && typeAccepted c.type

/-- `processJob(jobData)` against a store at time `now`: validate the
four identity fields, look up by `externalId` OR `url`, then overwrite
the found record (`Object.assign(existingJob, {...jobData, updatedAt:
new Date()})` followed by `save()`) or construct and `save()` a new
one.  Either `save()` re-runs the full `Job` schema validation on the
written document, and its throw — like every thrown error — is caught
and returned as a failed outcome with no store mutation. -/
def processJob (c : NormalizedJob) (now : Nat) (store : Store) :
    Outcome × Store :=
  if !hasRequiredFields c then
    ({ success := false, action := Action.failed,
       error := some validationErrorMsg }, store)
  else
    match store.find? (matchesIdentity c) with
    | some _ =>
        if jobSchemaAccepts c then
          ({ success := true, action := Action.updated, error := none },
           updateFirst (matchesIdentity c) { data := c, updatedAt := now } store)
        else
          ({ success := false, action := Action.failed,
             error := some schemaErrorMsg }, store)
    | none =>
        if jobSchemaAccepts c then
          ({ success := true, action := Action.created, error := none },
           store ++ [{ data := c, updatedAt := now }])
        else
          ({ success := false, action := Action.failed,
             error := some schemaErrorMsg }, store)

/-- The aggregate statistics object of `batchProcessJobs`. -/
structure BatchStats where
  total : Nat
  created : Nat
  updated : Nat
  failed : Nat
  errors : List String
deriving Repr, DecidableEq

/-- Run `processJob` over the batch, threading the store.  The source
fires all calls via `Promise.allSettled` against the shared database;
the embedding serializes them in batch order. -/
def runBatch (now : Nat) : List NormalizedJob → Store → List Outcome × Store
  | [], store => ([], store)
  | c :: rest, store =>
      match processJob c now store with
      | (o, store') =>
          match runBatch now rest store' with
          | (os, final) => (o :: os, final)

/-- The per-result tallying of `batchProcessJobs` (`processJob` always
fulfills, so only the `fulfilled` arm of the source is reachable). -/
def tallyOutcome (stats : BatchStats) (o : Outcome) : BatchStats :=
  if o.success then
    match o.action with
    | Action.created => { stats with created := stats.created + 1 }
    | Action.updated => { stats with updated := stats.updated + 1 }
    | Action.failed => stats
  else
    { stats with failed := stats.failed + 1
               , errors := stats.errors ++ [o.error.getD "Unknown error"] }

/-- `batchProcessJobs(jobs)`: stats start at
`{total: jobs.length, created: 0, updated: 0, failed: 0, errors: []}`
and every settled result bumps exactly one counter. -/
def batchProcessJobs (jobs : List NormalizedJob) (now : Nat)
    (store : Store) : BatchStats × Store :=
  match runBatch now jobs store with
  | (outcomes, final) =>
      (outcomes.foldl tallyOutcome
        { total := jobs.length, created := 0, updated := 0, failed := 0,
          errors := [] }, final)

/-! ## Run tracker statistics (`calculateSuccessRate`)

`((completed / total) * 100).toFixed(2)` when `total > 0`, else the
number `0`.  JavaScript float division is modelled by exact rational
arithmetic, and `toFixed(2)` by round-half-up to hundredths of a
percent. -/

/-- The JavaScript return value: a formatted string when `total > 0`,
the number `0` otherwise. -/
inductive RateValue where
  | str (s : String)
  | num (n : Nat)
deriving Repr, DecidableEq

/-- Round `num / den` to the nearest integer, half up. -/
def roundHalfUp (num den : Nat) : Nat := (2 * num + den) / (2 * den)

/-- Render `points` hundredths as a fixed two-decimal string
(`7500 ↦ "75.00"`). -/
def fmtFixed2 (points : Nat) : String :=
  toString (points / 100) ++ "." ++
    (if points % 100 < 10 then "0" else "") ++ toString (points % 100)

/-- `calculateSuccessRate` over the counts of completed and total runs. -/
def calculateSuccessRate (completed total : Nat) : RateValue :=
  if 0 < total then
    RateValue.str (fmtFixed2 (roundHalfUp (completed * 10000) total))
  else RateValue.num 0

/-! ## Pipeline entry points (`startImport`, `automatedImport`)

Both entry points perform the same effect sequence on the happy path:
create the import-run log, fetch and normalize from all feed URLs,
then — when candidates were fetched — bulk-enqueue them and afterwards
record the fetch-phase accounting (`totalFetched`, duration, status
`in-progress`) on the run.  The traces below record those observable
effects in source order, indexed by the fetch outcome. -/

inductive RunStatus where
  | inProgress
  | completed
  | failed
deriving Repr, DecidableEq

inductive PipeEvent where
  | createImportLog
  | fetchFeeds
  | enqueueBulk (count : Nat)
  | updateImportLog (totalFetched : Nat) (status : RunStatus)
  | respond (httpStatus : Nat)
deriving Repr, DecidableEq

/-- Effect trace of the `startImport` controller on a non-throwing run,
as a function of the number of feed URLs, fetched candidates and
per-URL fetch errors. -/
def startImportTrace (urlCount fetchedJobs fetchErrors : Nat) :
    List PipeEvent :=
  if urlCount = 0 then [PipeEvent.respond 400]
  else if fetchedJobs = 0 then
    [PipeEvent.createImportLog, PipeEvent.fetchFeeds,
     PipeEvent.updateImportLog 0
       (if 0 < fetchErrors then RunStatus.failed else RunStatus.completed),
     PipeEvent.respond 200]
  else
    [PipeEvent.createImportLog, PipeEvent.fetchFeeds,
     PipeEvent.enqueueBulk fetchedJobs,
     PipeEvent.updateImportLog fetchedJobs RunStatus.inProgress,
     PipeEvent.respond 202]

/-- Effect trace of the cron-driven `automatedImport` on a non-throwing
run (same pipeline, no HTTP response; an empty URL list returns before
creating the run log). -/
def automatedImportTrace (urlCount fetchedJobs fetchErrors : Nat) :
    List PipeEvent :=
  if urlCount = 0 then []
  else if fetchedJobs = 0 then
    [PipeEvent.createImportLog, PipeEvent.fetchFeeds,
     PipeEvent.updateImportLog 0
       (if 0 < fetchErrors then RunStatus.failed else RunStatus.completed)]
  else
    [PipeEvent.createImportLog, PipeEvent.fetchFeeds,
     PipeEvent.enqueueBulk fetchedJobs,
     PipeEvent.updateImportLog fetchedJobs RunStatus.inProgress]

/-! ## Concrete fixtures for witnesses and counterexamples -/

/-- A parsed document that is simultaneously a top-level array of three
elements and carries an `rss.channel.item` path holding one item. -/
def mixedShapeDoc : JValue :=
  JValue.vArr [JValue.vNum 1, JValue.vNum 2, JValue.vNum 3]
    [("rss", JValue.vObj [("channel", JValue.vObj
      [("item", JValue.vArr [JValue.vStr "rss-item"] [])])])]

/-- A batch of ten candidates in which exactly the fourth is missing its
`company` field (all other identity fields distinct and present). -/
def tenCandidateBatch : List NormalizedJob :=
  [ mkCandidate "e1" "T1" "C1" "u1", mkCandidate "e2" "T2" "C2" "u2"
  , mkCandidate "e3" "T3" "C3" "u3", mkCandidate "e4" "T4" "" "u4"
  , mkCandidate "e5" "T5" "C5" "u5", mkCandidate "e6" "T6" "C6" "u6"
  , mkCandidate "e7" "T7" "C7" "u7", mkCandidate "e8" "T8" "C8" "u8"
  , mkCandidate "e9" "T9" "C9" "u9", mkCandidate "e10" "T10" "C10" "u10" ]

/-- The shape of every outcome `processJob` resolves to: a success that
is `created` or `updated`, or a failure with action `failed`. -/
def wellFormedOutcome (o : Outcome) : Prop :=
  (o.success = true ∧ (o.action = Action.created ∨ o.action = Action.updated)) ∨
    (o.success = false ∧ o.action = Action.failed)

/-- A raw feed item carrying only `title` and `company` (no explicit
`id`/`guid`/`@_id`). -/
def rawItemFixture : JValue :=
  JValue.vObj [("title", JValue.vStr "Dev"), ("company", JValue.vStr "Acme")]

/-- A candidate with all four identity fields present but an empty
`description` — exactly what the normalizer's own default produces for
a feed item without one — which the `Job` schema rejects on `save()`. -/
def emptyDescCandidate : NormalizedJob :=
  { externalId := "ed1", title := "T", company := "Co"
  , category := "General", type := JsTypeValue.str "Other"
  , location := "Remote", description := "", url := "ud1"
  , postedAt := PostedAt.currentTime }

/-- C8 counterexample: `"Constructor"` has no lookup-table entry, yet
it does not normalize to `Other`: `typeMap["constructor"]` finds the
truthy `constructor` property inherited from `Object.prototype`, which
short-circuits the `|| 'Other'` fallback. -/
theorem type_normalization_counterexample :
    typeMap.find? (fun p => p.1 == jsTrim (jsToLowerCase "Constructor")) =
      none ∧
    normalizeJobType "Constructor" ≠ JsTypeValue.str "Other" ∧
    normalizeJobType "Constructor" = JsTypeValue.protoValue "constructor" := by
  decide

/-- C8 (amended): the Normalizer's type normalization is a case- and
whitespace-insensitive lookup: `"Full Time"`, `"full-time"` and
`"FULLTIME"` all normalize to `Full-time`, and every type string whose
lower-cased, trimmed form has no entry in the lookup table and does not
name a property inherited from `Object.prototype` normalizes to
`Other` (an inherited property name yields that truthy inherited value
instead). -/
theorem type_normalization_table :
    normalizeJobType "Full Time" = JsTypeValue.str "Full-time" ∧
    normalizeJobType "full-time" = JsTypeValue.str "Full-time" ∧
    normalizeJobType "FULLTIME" = JsTypeValue.str "Full-time" ∧
    (∀ t : String,
      typeMap.find? (fun p => p.1 == jsTrim (jsToLowerCase t)) = none →
      protoProps.contains (jsTrim (jsToLowerCase t)) = false →
      normalizeJobType t = JsTypeValue.str "Other") := by
  refine ⟨by decide, by decide, by decide, ?_⟩
  intro t h1 h2
  simp only [normalizeJobType, h1, h2, if_false, Bool.false_eq_true]

/-- Witness for C8: `"Internship"` has no lookup-table match, is not an
inherited property name, and normalizes to `Other`. -/
theorem type_normalization_table_witness :
    typeMap.find? (fun p => p.1 == jsTrim (jsToLowerCase "Internship")) =
      none ∧
    protoProps.contains (jsTrim (jsToLowerCase "Internship")) = false ∧
    normalizeJobType "Internship" = JsTypeValue.str "Other" :=
  ⟨by decide, by decide,
   type_normalization_table.2.2.2 "Internship" (by decide) (by decide)⟩

/-- C4 counterexample: with candidate `ext1` and run id `run1`, the
enqueued idempotency key is not `run1 ++ ":" ++ ext1` (the source joins
with a dash, not a colon). -/
theorem bulk_enqueue_key_counterexample :
    (addBulkJobsToQueue [mkCandidate "ext1" "T" "C" "u1"] "run1").map
        QueueEntry.jobId ≠ ["run1" ++ ":" ++ "ext1"] := by
  decide

/-- C4 (amended): bulk enqueue assigns each item the idempotency key
`importRunId ++ "-" ++ externalId` (dash separator), enqueues every item
under the name `process-job`, and preserves each candidate as the
payload. -/
theorem bulk_enqueue_idempotency_key (jobs : List NormalizedJob)
    (importRunId : String) :
    (addBulkJobsToQueue jobs importRunId).map QueueEntry.jobId =
      jobs.map (fun j => importRunId ++ "-" ++ j.externalId) ∧
    (∀ entry ∈ addBulkJobsToQueue jobs importRunId,
      entry.name = "process-job") ∧
    (addBulkJobsToQueue jobs importRunId).map QueueEntry.jobData = jobs := by
  induction jobs with
  | nil => exact ⟨rfl, by simp [addBulkJobsToQueue], rfl⟩
  | cons c rest ih =>
      refine ⟨?_, ?_, ?_⟩
      · simp [addBulkJobsToQueue]
      · intro entry he
        simp only [addBulkJobsToQueue, List.map_cons, List.mem_cons] at he
        rcases he with h | h
        · rw [h]
        · exact ih.2.1 entry (by simpa [addBulkJobsToQueue] using h)
      · simpa [addBulkJobsToQueue] using ih.2.2

/-- C2 counterexample: a candidate with all four identity fields
present but an empty `description` does not reconcile: the `Job`
schema's required `description` path makes `save()` throw, so the
first call against the empty store resolves to `failed` — not
`created` — and stores nothing. -/
theorem idempotent_reconciliation_counterexample :
    hasRequiredFields emptyDescCandidate = true ∧
    (processJob emptyDescCandidate 1 []).1.success = false ∧
    (processJob emptyDescCandidate 1 []).1.action = Action.failed ∧
    (processJob emptyDescCandidate 1 []).2 = [] :=
  ⟨rfl, rfl, rfl, rfl⟩

/-- C2 (amended): reconciliation is idempotent for store-acceptable
candidates.  For a candidate with all four identity fields present
that the `Job` schema accepts, processing it twice against an
initially empty store yields `created` then `updated`, and leaves
exactly one stored record whose mutable fields equal the second call's
input (with `updatedAt` refreshed to the second call's time). -/
theorem idempotent_reconciliation (c : NormalizedJob) (t1 t2 : Nat)
    (h : hasRequiredFields c = true) (hs : jobSchemaAccepts c = true) :
    (processJob c t1 []).1.success = true ∧
    (processJob c t1 []).1.action = Action.created ∧
    (processJob c t2 (processJob c t1 []).2).1.success = true ∧
    (processJob c t2 (processJob c t1 []).2).1.action = Action.updated ∧
    (processJob c t2 (processJob c t1 []).2).2 =
      [{ data := c, updatedAt := t2 }] := by
  have h1 : processJob c t1 [] =
      ({ success := true, action := Action.created, error := none },
       [{ data := c, updatedAt := t1 }]) := by
    simp [processJob, h, hs]
  have hm : matchesIdentity c { data := c, updatedAt := t1 } = true := by
    simp [matchesIdentity]
  have h2 : processJob c t2 [{ data := c, updatedAt := t1 }] =
      ({ success := true, action := Action.updated, error := none },
       [{ data := c, updatedAt := t2 }]) := by
    simp [processJob, h, hs, List.find?, hm, updateFirst]
  rw [h1, h2]
  exact ⟨rfl, rfl, rfl, rfl, rfl⟩

/-- Witness for C2: a concrete schema-acceptable candidate processed
twice from the empty store ends with exactly that one record, updated
at the second time. -/
theorem idempotent_reconciliation_witness :
    hasRequiredFields (mkCandidate "e" "T" "Co" "u") = true ∧
    jobSchemaAccepts (mkCandidate "e" "T" "Co" "u") = true ∧
    (processJob (mkCandidate "e" "T" "Co" "u") 2
        (processJob (mkCandidate "e" "T" "Co" "u") 1 []).2).2 =
      [{ data := mkCandidate "e" "T" "Co" "u", updatedAt := 2 }] :=
  ⟨by decide, by decide,
   (idempotent_reconciliation (mkCandidate "e" "T" "Co" "u") 1 2
     (by decide) (by decide)).2.2.2.2⟩

/-- C5: the Extractor recognizes the repeating-item shapes in exactly
the precedence order (a) `rss.channel.item`, (b) `feed.entry`,
(c) `jobs.job`, (d) bare `job`, (e) top-level array — first match wins
(in particular the fixture that is both a top-level array and carries
an `rss.channel.item` path extracts via the RSS path, one item instead
of three), and a document matching no shape yields `[]`, not an error. -/
theorem shape_precedence :
    (∀ d, hasRssShape d = true → extractItems d = asItemList (rssItems d)) ∧
    (∀ d, hasRssShape d = false → hasFeedShape d = true →
      extractItems d = asItemList (jget (jget d "feed") "entry")) ∧
    (∀ d, hasRssShape d = false → hasFeedShape d = false →
      hasJobsShape d = true →
      extractItems d = asItemList (jget (jget d "jobs") "job")) ∧
    (∀ d, hasRssShape d = false → hasFeedShape d = false →
      hasJobsShape d = false → hasJobShape d = true →
      extractItems d = asItemList (jget d "job")) ∧
    (∀ elems props, hasRssShape (JValue.vArr elems props) = false →
      hasFeedShape (JValue.vArr elems props) = false →
      hasJobsShape (JValue.vArr elems props) = false →
      hasJobShape (JValue.vArr elems props) = false →
      extractItems (JValue.vArr elems props) = elems) ∧
    (∀ d, hasRssShape d = false → hasFeedShape d = false →
      hasJobsShape d = false → hasJobShape d = false →
      isTopLevelArray d = false → extractItems d = []) ∧
    (hasRssShape mixedShapeDoc = true ∧ isTopLevelArray mixedShapeDoc = true ∧
      (asItemList mixedShapeDoc).length = 3 ∧
      extractItems mixedShapeDoc = [JValue.vStr "rss-item"]) := by
  refine ⟨?_, ?_, ?_, ?_, ?_, ?_, rfl, rfl, rfl, rfl⟩
  · intro d h1
    simp [extractItems, h1]
  · intro d h1 h2
    simp [extractItems, h1, h2]
  · intro d h1 h2 h3
    simp [extractItems, h1, h2, h3]
  · intro d h1 h2 h3 h4
    simp [extractItems, h1, h2, h3, h4]
  · intro elems props h1 h2 h3 h4
    simp [extractItems, h1, h2, h3, h4]
  · intro d h1 h2 h3 h4 h5
    cases d <;> simp_all [extractItems, isTopLevelArray]

/-- Witness for C5: the mixed fixture satisfies the RSS condition and
extracts via the RSS path. -/
theorem shape_precedence_witness :
    hasRssShape mixedShapeDoc = true ∧
    extractItems mixedShapeDoc = asItemList (rssItems mixedShapeDoc) :=
  ⟨rfl, shape_precedence.1 mixedShapeDoc rfl⟩

/-- C6: synthesized identity is deterministic.  For a raw item whose
`id`, `guid` and `@_id` fields are all absent (falsy), `normalizeJob`
succeeds and its `externalId` is exactly the synthesized value
`sourceUrl + "-" + title + "-" + company` with every non-alphanumeric
character replaced by `-`, lower-cased and truncated to 200 characters;
two runs (under any two date-parsing environments) agree on it. -/
theorem deterministic_synthesized_identity (dv1 dv2 : JValue → Bool)
    (raw : JValue) (sourceUrl : String)
    (h1 : truthy (jget raw "id") = false)
    (h2 : truthy (jget raw "guid") = false)
    (h3 : truthy (jget raw "@_id") = false) :
    (normalizeJob dv1 raw sourceUrl).toOption.map NormalizedJob.externalId =
      some (jsSubstring (jsToLowerCase (collapseNonAlnum
        (sourceUrl ++ "-" ++ jsString (titleVal raw) ++ "-" ++
          jsString (companyVal raw)))) 200) ∧
    (normalizeJob dv1 raw sourceUrl).toOption.map NormalizedJob.externalId =
      (normalizeJob dv2 raw sourceUrl).toOption.map NormalizedJob.externalId := by
  have hre : rawExternalId raw sourceUrl =
      JValue.vStr (synthesizedId raw sourceUrl) := by
    simp [rawExternalId, jsOr, h1, h2, h3]
  constructor <;>
    simp [normalizeJob, hre, Except.toOption, synthesizedId]

/-- Witness for C6: the fixture raw item (title and company only) gets
the same synthesized `externalId` under two different date parsers. -/
theorem deterministic_synthesized_identity_witness :
    truthy (jget rawItemFixture "id") = false ∧
    truthy (jget rawItemFixture "guid") = false ∧
    truthy (jget rawItemFixture "@_id") = false ∧
    (normalizeJob (fun _ => true) rawItemFixture "https://x.co").toOption.map
        NormalizedJob.externalId =
      (normalizeJob (fun _ => false) rawItemFixture "https://x.co").toOption.map
        NormalizedJob.externalId :=
  ⟨rfl, rfl, rfl,
   (deterministic_synthesized_identity (fun _ => true) (fun _ => false)
     rawItemFixture "https://x.co" rfl rfl rfl).2⟩

/-- C7: a candidate missing any of the four identity-bearing fields
makes `processJob` resolve to a failed outcome with the validation
reason and leave the store untouched; and in the fixture batch of ten
candidates where exactly one is missing `company`, the stats report
nine successes (all created) and exactly one failure, with the nine
store writes present. -/
theorem validation_failure_and_batch_isolation :
    (∀ c now store, hasRequiredFields c = false →
      processJob c now store =
        ({ success := false, action := Action.failed,
           error := some validationErrorMsg }, store)) ∧
    (∀ now,
      (batchProcessJobs tenCandidateBatch now []).1.total = 10 ∧
      (batchProcessJobs tenCandidateBatch now []).1.created = 9 ∧
      (batchProcessJobs tenCandidateBatch now []).1.updated = 0 ∧
      (batchProcessJobs tenCandidateBatch now []).1.failed = 1 ∧
      (batchProcessJobs tenCandidateBatch now []).2.map
          (fun r => r.data.externalId) =
        ["e1", "e2", "e3", "e5", "e6", "e7", "e8", "e9", "e10"]) := by
  constructor
  · intro c now store hc
    simp [processJob, hc]
  · intro now
    exact ⟨rfl, rfl, rfl, rfl, rfl⟩

/-- Witness for C7: the batch's fourth candidate (empty `company`)
fails without store mutation. -/
theorem validation_failure_and_batch_isolation_witness :
    hasRequiredFields (mkCandidate "e4" "T4" "" "u4") = false ∧
    processJob (mkCandidate "e4" "T4" "" "u4") 7 [] =
      ({ success := false, action := Action.failed,
         error := some validationErrorMsg }, []) :=
  ⟨by decide,
   validation_failure_and_batch_isolation.1
     (mkCandidate "e4" "T4" "" "u4") 7 [] (by decide)⟩

/-- `processJob` always resolves to a structured outcome: success with
`created`/`updated`, or failure with `failed`. -/
theorem processJob_wellFormed (c : NormalizedJob) (now : Nat)
    (store : Store) : wellFormedOutcome (processJob c now store).1 := by
  by_cases hc : hasRequiredFields c = true
  · by_cases hs : jobSchemaAccepts c = true
    · cases hf : store.find? (matchesIdentity c) <;>
        simp [processJob, hc, hs, hf, wellFormedOutcome]
    · have hs' : jobSchemaAccepts c = false := by
        simpa using hs
      cases hf : store.find? (matchesIdentity c) <;>
        simp [processJob, hc, hs', hf, wellFormedOutcome]
  · have hc' : hasRequiredFields c = false := by
      simpa using hc
    simp [processJob, hc', wellFormedOutcome]

/-- `runBatch` yields one outcome per candidate and every outcome is
well-formed. -/
theorem runBatch_outcomes (now : Nat) :
    ∀ (jobs : List NormalizedJob) (store : Store),
      (runBatch now jobs store).1.length = jobs.length ∧
      ∀ o ∈ (runBatch now jobs store).1, wellFormedOutcome o := by
  intro jobs
  induction jobs with
  | nil => intro store; exact ⟨rfl, by simp [runBatch]⟩
  | cons c rest ih =>
      intro store
      constructor
      · simp [runBatch, (ih (processJob c now store).2).1]
      · intro o ho
        simp only [runBatch, List.mem_cons] at ho
        rcases ho with rfl | ho
        · exact processJob_wellFormed c now store
        · exact (ih (processJob c now store).2).2 o ho

/-- Tallying never changes `total`. -/
theorem tallyOutcome_total (st : BatchStats) (o : Outcome) :
    (tallyOutcome st o).total = st.total := by
  cases hs : o.success <;> cases ha : o.action <;> simp [tallyOutcome, hs, ha]

/-- Tallying a well-formed outcome bumps the counter sum by one. -/
theorem tallyOutcome_sum (st : BatchStats) (o : Outcome)
    (h : wellFormedOutcome o) :
    (tallyOutcome st o).created + (tallyOutcome st o).updated +
      (tallyOutcome st o).failed =
    st.created + st.updated + st.failed + 1 := by
  rcases h with ⟨hs, ha | ha⟩ | ⟨hs, ha⟩ <;> simp [tallyOutcome, hs, ha] <;> omega

/-- Folding the tally over well-formed outcomes preserves `total` and
adds the outcome count to the counter sum. -/
theorem foldl_tally (os : List Outcome) :
    ∀ st : BatchStats, (∀ o ∈ os, wellFormedOutcome o) →
      (os.foldl tallyOutcome st).total = st.total ∧
      (os.foldl tallyOutcome st).created + (os.foldl tallyOutcome st).updated +
          (os.foldl tallyOutcome st).failed =
        st.created + st.updated + st.failed + os.length := by
  induction os with
  | nil => intro st h; exact ⟨rfl, by simp⟩
  | cons o os ih =>
      intro st h
      have ho := h o (List.mem_cons_self o os)
      have hrest := ih (tallyOutcome st o)
        (fun x hx => h x (List.mem_cons_of_mem o hx))
      refine ⟨?_, ?_⟩
      · rw [List.foldl_cons, hrest.1, tallyOutcome_total]
      · rw [List.foldl_cons, hrest.2, tallyOutcome_sum st o ho]
        simp [List.length_cons]
        omega

/-- C10: for every candidate list, batch processing resolves to stats
whose `total` equals the input length and whose `created + updated +
failed` counters sum to `total` — `processJob` always resolves to a
structured outcome, never propagating an exception. -/
theorem batch_stats_accounting (jobs : List NormalizedJob) (now : Nat)
    (store : Store) :
    (batchProcessJobs jobs now store).1.total = jobs.length ∧
    (batchProcessJobs jobs now store).1.created +
      (batchProcessJobs jobs now store).1.updated +
      (batchProcessJobs jobs now store).1.failed = jobs.length := by
  have h := runBatch_outcomes now jobs store
  have hf := foldl_tally (runBatch now jobs store).1
    { total := jobs.length, created := 0, updated := 0, failed := 0,
      errors := [] } h.2
  constructor
  · simpa [batchProcessJobs] using hf.1
  · have := hf.2
    rw [h.1] at this
    simpa [batchProcessJobs] using this

/-- C9: the aggregate success rate is completed-runs over total-runs as
a percentage with two-decimal precision — the number `0` when the total
run count is `0`, otherwise a fixed two-decimal string whose value is
within half of the last rendered digit (1/200 of a percent) of the
exact percentage; given 3 completed runs out of 4 it reports `75.00`. -/
theorem success_rate_spec :
    (∀ completed, calculateSuccessRate completed 0 = RateValue.num 0) ∧
    calculateSuccessRate 3 4 = RateValue.str "75.00" ∧
    (∀ completed total, 0 < total →
      ∃ points : Nat,
        calculateSuccessRate completed total =
          RateValue.str (fmtFixed2 points) ∧
        |(points : ℚ) / 100 - (completed : ℚ) / (total : ℚ) * 100| ≤
          1 / 200) := by
  refine ⟨fun completed => rfl, by decide, ?_⟩
  intro c t ht
  refine ⟨roundHalfUp (c * 10000) t, by simp [calculateSuccessRate, ht], ?_⟩
  have h20 : 0 < 2 * t := by omega
  have hdm := Nat.div_add_mod (2 * (c * 10000) + t) (2 * t)
  have hmlt : (2 * (c * 10000) + t) % (2 * t) < 2 * t := Nat.mod_lt _ h20
  set q := roundHalfUp (c * 10000) t with hq
  have hqd : q = (2 * (c * 10000) + t) / (2 * t) := rfl
  set r := (2 * (c * 10000) + t) % (2 * t) with hr
  have hident : 2 * t * q + r = 2 * (c * 10000) + t := by
    rw [hqd]; exact hdm
  have htq : (0 : ℚ) < (t : ℚ) := by exact_mod_cast ht
  have hidq : 2 * (t : ℚ) * (q : ℚ) + (r : ℚ) =
      2 * ((c : ℚ) * 10000) + (t : ℚ) := by exact_mod_cast hident
  have hrq : (r : ℚ) < 2 * (t : ℚ) := by exact_mod_cast hmlt
  have hrq0 : (0 : ℚ) ≤ (r : ℚ) := by positivity
  have key : (q : ℚ) / 100 - (c : ℚ) / (t : ℚ) * 100 =
      (2 * (t : ℚ) * (q : ℚ) - 20000 * (c : ℚ)) / (200 * (t : ℚ)) := by
    field_simp
    ring
  have hnum : 2 * (t : ℚ) * (q : ℚ) - 20000 * (c : ℚ) =
      (t : ℚ) - (r : ℚ) := by linarith
  rw [key, hnum, abs_div,
    abs_of_pos (by positivity : (0 : ℚ) < 200 * (t : ℚ)),
    div_le_iff₀ (by positivity : (0 : ℚ) < 200 * (t : ℚ))]
  have habs : |(t : ℚ) - (r : ℚ)| ≤ (t : ℚ) := by
    rw [abs_le]
    constructor <;> linarith
  calc |(t : ℚ) - (r : ℚ)| ≤ (t : ℚ) := habs
    _ = 1 / 200 * (200 * (t : ℚ)) := by ring

/-- Witness for C9: with 3 completed runs out of 4 total, the reported
string is `75.00` and its value 75 is within 1/200 of the exact
percentage. -/
theorem success_rate_spec_witness :
    (0 : Nat) < 4 ∧
    ∃ points : Nat,
      calculateSuccessRate 3 4 = RateValue.str (fmtFixed2 points) ∧
      |(points : ℚ) / 100 - (3 : ℚ) / (4 : ℚ) * 100| ≤ 1 / 200 :=
  ⟨by decide, success_rate_spec.2.2 3 4 (by decide)⟩

/-- C1 counterexample: on a `startImport` run with 1 feed URL, 1 fetched
candidate and no fetch errors, both the fetch-phase accounting update
and the bulk enqueue occur, but no occurrence of the accounting update
precedes the enqueue — the source calls `addBulkJobsToQueue` first and
`updateImportLog` with `totalFetched` only afterwards. -/
theorem fetch_accounting_order_counterexample :
    PipeEvent.updateImportLog 1 RunStatus.inProgress ∈ startImportTrace 1 1 0 ∧
    PipeEvent.enqueueBulk 1 ∈ startImportTrace 1 1 0 ∧
    ¬ ∃ i j : Fin (startImportTrace 1 1 0).length, i < j ∧
        (startImportTrace 1 1 0).get i =
          PipeEvent.updateImportLog 1 RunStatus.inProgress ∧
        (startImportTrace 1 1 0).get j = PipeEvent.enqueueBulk 1 := by
  decide

/-- C1 (amended): in both entry points, when at least one candidate was
fetched, bulk enqueue is attempted before the run accounting update
for the fetch phase: the trace splits at the enqueue event with no
accounting update of any kind before it and the `totalFetched`
update (status `in-progress`) after it — so a crash between fetch and
enqueue leaves a run with no totalFetched recorded and no queued
progress. -/
theorem enqueue_before_fetch_accounting (urls n e : Nat)
    (hu : 0 < urls) (hn : 0 < n) :
    (∃ pre post,
      startImportTrace urls n e = pre ++ PipeEvent.enqueueBulk n :: post ∧
      (∀ ev ∈ pre, ∀ tf st, ev ≠ PipeEvent.updateImportLog tf st) ∧
      PipeEvent.updateImportLog n RunStatus.inProgress ∈ post) ∧
    (∃ pre post,
      automatedImportTrace urls n e = pre ++ PipeEvent.enqueueBulk n :: post ∧
      (∀ ev ∈ pre, ∀ tf st, ev ≠ PipeEvent.updateImportLog tf st) ∧
      PipeEvent.updateImportLog n RunStatus.inProgress ∈ post) := by
  have hu' : urls ≠ 0 := Nat.pos_iff_ne_zero.mp hu
  have hn' : n ≠ 0 := Nat.pos_iff_ne_zero.mp hn
  constructor
  · refine ⟨[PipeEvent.createImportLog, PipeEvent.fetchFeeds],
      [PipeEvent.updateImportLog n RunStatus.inProgress,
       PipeEvent.respond 202], ?_, ?_, ?_⟩
    · simp [startImportTrace, hu', hn']
    · intro ev hev tf st
      simp only [List.mem_cons, List.not_mem_nil, or_false] at hev
      rcases hev with rfl | rfl <;> (intro hc; cases hc)
    · simp
  · refine ⟨[PipeEvent.createImportLog, PipeEvent.fetchFeeds],
      [PipeEvent.updateImportLog n RunStatus.inProgress], ?_, ?_, ?_⟩
    · simp [automatedImportTrace, hu', hn']
    · intro ev hev tf st
      simp only [List.mem_cons, List.not_mem_nil, or_false] at hev
      rcases hev with rfl | rfl <;> (intro hc; cases hc)
    · simp

/-- Witness for C1 (amended): the concrete run with 1 URL and 1 fetched
candidate splits as stated. -/
theorem enqueue_before_fetch_accounting_witness :
    (0 : Nat) < 1 ∧
    ∃ pre post,
      startImportTrace 1 1 0 = pre ++ PipeEvent.enqueueBulk 1 :: post ∧
      (∀ ev ∈ pre, ∀ tf st, ev ≠ PipeEvent.updateImportLog tf st) ∧
      PipeEvent.updateImportLog 1 RunStatus.inProgress ∈ post :=
  ⟨by decide,
   (enqueue_before_fetch_accounting 1 1 0 (by decide) (by decide)).1⟩

/-- Witness for C4 (amended): the single enqueued entry of the fixture
bulk call carries the dash-joined key, and the entry is named
`process-job`. -/
theorem bulk_enqueue_idempotency_key_witness :
    (addBulkJobsToQueue [mkCandidate "ext1" "T" "C" "u1"] "run1").map
        QueueEntry.jobId = ["run1" ++ "-" ++ "ext1"] ∧
    ({ name := "process-job", jobData := mkCandidate "ext1" "T" "C" "u1"
     , importLogId := "run1", jobId := "run1" ++ "-" ++ "ext1" } :
       QueueEntry).name = "process-job" :=
  ⟨(bulk_enqueue_idempotency_key [mkCandidate "ext1" "T" "C" "u1"] "run1").1,
   (bulk_enqueue_idempotency_key [mkCandidate "ext1" "T" "C" "u1"] "run1").2.1
     _ (List.mem_cons_self _ _)⟩
